import Mathlib

/-!
Verification development for the hackernews-insights repository.

This file gives a shallow embedding of the two core subsystems of the
repository — the bounded autonomous crawl controller
(`src/githubBlogScraper.ts`, function `browseWithLLMFallback`) and the
feedback-driven relevance and suppression engine (`src/feedback.ts`,
functions `computeRelevanceScore` and `recordFeedbackEvent`) together with
the storage layer (`src/storage.ts`) — and proves or refutes the frozen
specification claims about them.

Modelling conventions:
* Timestamps (JavaScript epoch milliseconds) are rationals.
* JavaScript floating-point arithmetic inside the scoring engine
  (`Math.exp`, `Math.log`) is idealised as real arithmetic; `Math.round`
  is the floor of x + 1/2, which is exactly JavaScript round-half-up.
* External platform capabilities (the WHATWG URL parser, the page fetcher
  of Playwright, the Ollama decision oracle, the wall clock, and store
  failures) are explicit parameters of the embedding, so that crawl runs
  are quantified over every possible environment and every — possibly
  adversarial — oracle behaviour.
* The append-only stores of Prisma are embedded as explicit state records
  that every storage operation threads.
-/

/-! ## Small JavaScript arithmetic helpers -/

/-- JavaScript `Math.round` on rationals: round half toward positive infinity. -/
def jsRoundQ (q : ℚ) : ℤ := ⌊q + 1/2⌋

/-- JavaScript `Math.round` on reals (used where the source computes with floats). -/
noncomputable def jsRoundR (x : ℝ) : ℤ := ⌊x + 1/2⌋

/-! ## String helpers over `List Char`

The built-in `String.endsWith`, `String.trim` and `String.toUTF8` do not
reduce inside the kernel, so the embedding uses list-of-characters
implementations of the few JavaScript string operations the source needs.
-/

/-- List-level suffix test; models JavaScript `String.prototype.endsWith`. -/
def listEndsWith (a b : List Char) : Bool :=
  b == a.drop (a.length - b.length)

/-- List-level character-prefix test used to model the anchored regex
`\x7b^(www\.|m\.|mobile\.)\x7d` replacement. -/
def listStartsWith (a b : List Char) : Bool :=
  b == a.take b.length

/-- Models `String.prototype.trim`: strip whitespace from both ends. -/
def jsTrim (s : String) : String :=
  String.mk (((s.data.dropWhile Char.isWhitespace).reverse.dropWhile
    Char.isWhitespace).reverse)

/-- UTF-8 encoding of one character (Lean `Char` excludes surrogates, so the
standard three-range encoder is total and agrees with `TextEncoder`). -/
def utf8Bytes (c : Char) : List ℕ :=
  let n := c.toNat
  if n < 128 then [n]
  else if n < 2048 then [192 + n / 64, 128 + n % 64]
  else if n < 65536 then [224 + n / 4096, 128 + (n / 64) % 64, 128 + n % 64]
  else [240 + n / 262144, 128 + (n / 4096) % 64, 128 + (n / 64) % 64, 128 + n % 64]

/-- UTF-8 bytes of a string, as natural numbers below 256. -/
def stringUtf8 (s : String) : List ℕ := s.data.flatMap utf8Bytes

/-! ## SHA-256

`deriveStoryIdFromUrl` in `src/sourceRegistry.ts` hashes the URL with
Node's `crypto.createHash('sha256')`; the hash is embedded here as a pure
function over byte lists (FIPS 180-4), with 32-bit words represented as
naturals reduced modulo 2^32.
-/

namespace Sha256

/-- Reduce to a 32-bit word. -/
def w32 (n : ℕ) : ℕ := n % 4294967296

/-- Right rotation of a 32-bit word. -/
def rotr (r x : ℕ) : ℕ := w32 ((x >>> r) ||| (x <<< (32 - r)))

/-- Bitwise complement within 32 bits. -/
def wnot (x : ℕ) : ℕ := 4294967295 ^^^ x

def bigSigma0 (x : ℕ) : ℕ := rotr 2 x ^^^ rotr 13 x ^^^ rotr 22 x

def bigSigma1 (x : ℕ) : ℕ := rotr 6 x ^^^ rotr 11 x ^^^ rotr 25 x

def smallSigma0 (x : ℕ) : ℕ := rotr 7 x ^^^ rotr 18 x ^^^ (x >>> 3)

def smallSigma1 (x : ℕ) : ℕ := rotr 17 x ^^^ rotr 19 x ^^^ (x >>> 10)

def ch (x y z : ℕ) : ℕ := (x &&& y) ^^^ (wnot x &&& z)

def maj (x y z : ℕ) : ℕ := (x &&& y) ^^^ (x &&& z) ^^^ (y &&& z)

/-- The 64 round constants. -/
def K : List ℕ :=
  [1116352408, 1899447441, 3049323471, 3921009573, 961987163,
   1508970993, 2453635748, 2870763221, 3624381080, 310598401,
   607225278, 1426881987, 1925078388, 2162078206, 2614888103,
   3248222580, 3835390401, 4022224774, 264347078, 604807628,
   770255983, 1249150122, 1555081692, 1996064986, 2554220882,
   2821834349, 2952996808, 3210313671, 3336571891, 3584528711,
   113926993, 338241895, 666307205, 773529912, 1294757372,
   1396182291, 1695183700, 1986661051, 2177026350, 2456956037,
   2730485921, 2820302411, 3259730800, 3345764771, 3516065817,
   3600352804, 4094571909, 275423344, 430227734, 506948616,
   659060556, 883997877, 958139571, 1322822218, 1537002063,
   1747873779, 1955562222, 2024104815, 2227730452, 2361852424,
   2428436474, 2756734187, 3204031479, 3329325298]

/-- Initial hash value. -/
def H0 : List ℕ :=
  [1779033703, 3144134277, 1013904242, 2773480762,
   1359893119, 2600822924, 528734635, 1541459225]

/-- Big-endian byte expansion of a natural number to a fixed width. -/
def bytesBE (width n : ℕ) : List ℕ :=
  (List.range width).map (fun i => (n >>> (8 * (width - 1 - i))) % 256)

/-- FIPS 180-4 message padding: append 0x80, zeros, and the 64-bit
big-endian bit length, reaching a multiple of 64 bytes. -/
def pad (msg : List ℕ) : List ℕ :=
  let zeros := (119 - (msg.length % 64)) % 64
  msg ++ [128] ++ List.replicate zeros 0 ++ bytesBE 8 (msg.length * 8)

/-- Split a list into contiguous chunks of the given size (the head always
advances, so the recursion terminates for every size). -/
def chunksOf (n : ℕ) : List ℕ → List (List ℕ)
  | [] => []
  | a :: t => (a :: t.take (n - 1)) :: chunksOf n (t.drop (n - 1))
termination_by l => l.length
decreasing_by
  simp
  omega

/-- Pack four big-endian bytes into one 32-bit word. -/
def packWord : List ℕ → ℕ
  | [b0, b1, b2, b3] => b0 * 16777216 + b1 * 65536 + b2 * 256 + b3
  | _ => 0

/-- The sixteen initial words of one 64-byte block. -/
def blockWords (block : List ℕ) : List ℕ := (chunksOf 4 block).map packWord

/-- Message-schedule extension of the sixteen block words to 64 words. -/
def extendWords (w : Array ℕ) : ℕ → Array ℕ
  | 0 => w
  | i + 1 =>
    let w' := extendWords w i
    if i + 16 < 16 then w'
    else
      let j := i + 16
      w'.push (w32 (smallSigma1 (w'.getD (j - 2) 0) + w'.getD (j - 7) 0 +
        smallSigma0 (w'.getD (j - 15) 0) + w'.getD (j - 16) 0))

/-- Working registers of the compression function. -/
structure Regs where
  a : ℕ
  b : ℕ
  c : ℕ
  d : ℕ
  e : ℕ
  f : ℕ
  g : ℕ
  h : ℕ

/-- One compression round. -/
def round (w : Array ℕ) (i : ℕ) (r : Regs) : Regs :=
  let t1 := w32 (r.h + bigSigma1 r.e + ch r.e r.f r.g + K.getD i 0 + w.getD i 0)
  let t2 := w32 (bigSigma0 r.a + maj r.a r.b r.c)
  ⟨w32 (t1 + t2), r.a, r.b, r.c, w32 (r.d + t1), r.e, r.f, r.g⟩

/-- Compress one 64-byte block into the running eight-word state. -/
def compress (state : List ℕ) (block : List ℕ) : List ℕ :=
  let w := extendWords (List.toArray (blockWords block)) 48
  let init : Regs :=
    ⟨state.getD 0 0, state.getD 1 0, state.getD 2 0, state.getD 3 0,
     state.getD 4 0, state.getD 5 0, state.getD 6 0, state.getD 7 0⟩
  let r := (List.range 64).foldl (fun acc i => round w i acc) init
  [w32 (state.getD 0 0 + r.a), w32 (state.getD 1 0 + r.b),
   w32 (state.getD 2 0 + r.c), w32 (state.getD 3 0 + r.d),
   w32 (state.getD 4 0 + r.e), w32 (state.getD 5 0 + r.f),
   w32 (state.getD 6 0 + r.g), w32 (state.getD 7 0 + r.h)]

/-- Full digest of a byte list: eight 32-bit words. -/
def digestWords (msg : List ℕ) : List ℕ :=
  (chunksOf 64 (pad msg)).foldl compress H0

/-- Lowercase hexadecimal digit. -/
def hexChar (n : ℕ) : Char :=
  if n < 10 then Char.ofNat (48 + n) else Char.ofNat (87 + n)

/-- Eight lowercase hex digits of one 32-bit word. -/
def wordHex (w : ℕ) : List Char :=
  (List.range 8).map (fun i => hexChar ((w >>> (4 * (7 - i))) % 16))

/-- Hex digest of a string, as produced by `createHash('sha256').update(s).digest('hex')`. -/
def hexDigest (s : String) : String :=
  String.mk ((digestWords (stringUtf8 s)).flatMap wordHex)

end Sha256

/-- Keep only the characters admitted by the `[^a-z0-9_-]/gi` replacement. -/
def sanitizeSourceTag (s : String) : String :=
  String.mk (s.data.filter (fun c =>
    c.isAlpha || c.isDigit || c == '_' || c == '-'))

/-- Embeds `deriveStoryIdFromUrl` of `src/sourceRegistry.ts`: the first 12
hex characters of the SHA-256 of the URL, behind a sanitized source tag
(`"url"` when no source is given, as in the crawl controller). -/
def deriveStoryIdFromUrl (url : String) (source : Option String) : String :=
  let hash := (Sha256.hexDigest url).take 12
  let tag := match source with
    | some s => sanitizeSourceTag s
    | none => "url"
  tag ++ ":" ++ hash

/-! ## Crawl controller data model (`src/githubBlogScraper.ts`) -/

/-- Content signals scraped from a page (`extractContentFromPage`); the
concrete field values are produced by the page-fetch capability. -/
structure ContentSignals where
  pageTitle : String
  description : String
  headings : List String
  paragraphs : List String
  hasCodeBlocks : Bool
  bodyText : String
deriving DecidableEq, Repr

/-- One outbound link of a snapshot, with its run-scoped synthetic id. -/
structure LinkInfo where
  id : String
  text : String
  href : String
deriving DecidableEq, Repr

/-- A page snapshot handed to the decision oracle (`captureSnapshot`). -/
structure Snapshot where
  url : String
  title : String
  headings : List String
  snippets : List String
  links : List LinkInfo
deriving DecidableEq, Repr

/-- Dynamically-typed JSON/JavaScript values, as far as `sanitizeDecision`
inspects them. -/
inductive JSVal where
  | str (s : String)
  | num (q : ℚ)
  | jsbool (b : Bool)
  | null
  | obj (fields : List (String × JSVal))
  | arr (elems : List JSVal)

/-- Property lookup on a JavaScript value: defined on plain objects; every
other shape (arrays included, whose named properties are absent here)
yields `undefined`, represented as `none`. -/
def JSVal.getProp : JSVal → String → Option JSVal
  | .obj fields, k => (fields.find? (fun f => f.1 == k)).map (·.2)
  | _, _ => none

/-- The three sanitized crawl actions. -/
inductive BrowseAction where
  | click
  | extract
  | stop
deriving DecidableEq, Repr

/-- A sanitized browsing decision. -/
structure BrowsingDecision where
  action : BrowseAction
  target : Option String
  reason : String
deriving DecidableEq, Repr

/-- Embeds `sanitizeDecision`: any shape that is not a truthy object
collapses to `stop`; an unrecognised `action` value collapses to `stop`;
`target` survives only when it is a string (JavaScript `null` and a missing
property both become `none`); `reason` survives only when it is a string.
Arrays are objects in JavaScript (`typeof [] === 'object'`) with none of
the three named properties, so they fall through the property lookups. -/
def sanitizeDecision (raw : JSVal) : BrowsingDecision :=
  match raw with
  | .obj _ | .arr _ =>
    let action := match raw.getProp "action" with
      | some (.str "click") => BrowseAction.click
      | some (.str "extract") => BrowseAction.extract
      | some (.str "stop") => BrowseAction.stop
      | _ => BrowseAction.stop
    let target := match raw.getProp "target" with
      | some (.str s) => some s
      | _ => none
    let reason := match raw.getProp "reason" with
      | some (.str s) => s
      | _ => "No reason provided"
    ⟨action, target, reason⟩
  | _ => ⟨.stop, none, "Invalid response shape"⟩

/-- Outcome of one decision-oracle call, after the HTTP layer:
`failure` is a thrown error (network failure, non-OK status, timeout
abort), `nonJson` is a 200 response whose content does not parse as JSON
(the empty string included), `json` is a parsed JSON value. -/
inductive OracleOutcome where
  | failure
  | nonJson (content : String)
  | json (v : JSVal)

/-- Embeds `getBrowsingDecision`: a thrown error yields a `stop` decision,
non-JSON content yields a `stop` decision, JSON content is sanitized. -/
def decisionOf : OracleOutcome → BrowsingDecision
  | .failure => ⟨.stop, none, "Decision service failed"⟩
  | .nonJson content =>
    ⟨.stop, none,
      if content == "" then "Non-JSON decision returned: empty response"
      else "Non-JSON decision returned: " ++ String.mk (content.data.take 120)⟩
  | .json v => sanitizeDecision v

/-- External capabilities of one crawl run: the WHATWG URL parser
(`new URL(u).hostname`, `none` when the constructor throws), the page
fetch plus snapshot capture (`none` when navigation or scraping throws),
and the full-content extraction for `extract` decisions. -/
structure CrawlEnv where
  hostname : String → Option String
  fetchPage : String → Option Snapshot
  extractContent : String → ContentSignals

/-- Embeds `isDomainAllowed`: hostname parse failure refuses, an empty
allowlist refuses, otherwise the host must equal an allowed domain or be a
dot-separated subdomain of one. -/
def isDomainAllowed (env : CrawlEnv) (url : String) (allowlist : List String) : Bool :=
  match env.hostname url with
  | none => false
  | some h =>
    !allowlist.isEmpty &&
      allowlist.any (fun domain =>
        h == domain || listEndsWith h.data ("." ++ domain).data)

/-- A story candidate emitted by the crawl (`NormalizedStoryCandidate`). -/
structure NormalizedStoryCandidate where
  id : String
  title : String
  url : String
  sourceId : String
  content : ContentSignals
deriving DecidableEq, Repr

/-- The resolved options of `browseWithLLMFallback` (environment-variable
defaults already applied). -/
structure FallbackBrowsingOptions where
  sourceId : String
  seedUrl : String
  domainAllowlist : List String
  maxPages : ℕ
  maxClicks : ℕ
  maxDepth : ℕ
  timeoutMs : ℚ
  maxCandidates : ℕ

/-- Static data of one run: resolved options, effective allowlist and the
start-of-run timestamp. -/
structure CrawlConfig where
  sourceId : String
  allowlist : List String
  maxPages : ℕ
  maxClicks : ℕ
  maxDepth : ℕ
  timeoutMs : ℚ
  maxCandidates : ℕ
  startTime : ℚ

/-- Mutable state of the exploration loop. `iter` counts loop iterations
(indexing the wall-clock readings) and `calls` counts oracle calls. The
`fetched` list is the trace of attempted page navigations, in order. -/
structure CrawlState where
  queue : List (String × ℕ)
  visited : List String
  candidates : List NormalizedStoryCandidate
  clicks : ℕ
  pagesVisited : ℕ
  iter : ℕ
  calls : ℕ
  fetched : List String

/-- What a finished run reports: the accumulated candidates, plus the
navigation trace (kept so that safety claims can speak about fetches). -/
structure CrawlResult where
  candidates : List NormalizedStoryCandidate
  fetched : List String
deriving DecidableEq, Repr

/-- One loop iteration either finishes the run or continues in a new state. -/
inductive StepOutcome where
  | done (r : CrawlResult)
  | next (s : CrawlState)

/-- State after an iteration that skipped the dequeued item without
navigating (duplicate URL or allowlist refusal). -/
def skipState (s : CrawlState) (rest : List (String × ℕ)) : CrawlState :=
  { s with queue := rest, iter := s.iter + 1 }

/-- State after an iteration that navigated to `url`: the URL is marked
visited, the page counter advances and the navigation is recorded. -/
def navState (s : CrawlState) (rest : List (String × ℕ)) (url : String) : CrawlState :=
  { s with queue := rest, visited := url :: s.visited,
           pagesVisited := s.pagesVisited + 1,
           fetched := s.fetched ++ [url], iter := s.iter + 1 }

/-- Like `navState` but additionally counting the decision-oracle call that
the iteration made after the page loaded. -/
def navCalledState (s : CrawlState) (rest : List (String × ℕ)) (url : String) : CrawlState :=
  { navState s rest url with calls := s.calls + 1 }

/-- Dispatch of one sanitized decision, mirroring the three-way `if` chain
of `browseWithLLMFallback` after the snapshot and decision are available:
`extract` emits a candidate (stopping at the candidate budget), `click`
validates the target against the snapshot links, the allowlist, the
visited set and the depth budget before enqueueing, and `stop` ends the
run. -/
def crawlCandidate (env : CrawlEnv) (C : CrawlConfig) (url : String)
    (snap : Snapshot) : NormalizedStoryCandidate :=
  ⟨deriveStoryIdFromUrl url none,
   if snap.title == "" then "Untitled" else snap.title,
   url, C.sourceId, env.extractContent url⟩

def handleDecision (env : CrawlEnv) (C : CrawlConfig) (s : CrawlState)
    (rest : List (String × ℕ)) (url : String) (depth : ℕ) (snap : Snapshot)
    (decision : BrowsingDecision) : StepOutcome :=
  match decision.action with
  | .extract =>
    if (s.candidates ++ [crawlCandidate env C url snap]).length ≥ C.maxCandidates then
      .done ⟨s.candidates ++ [crawlCandidate env C url snap], s.fetched ++ [url]⟩
    else
      .next { navCalledState s rest url with
                candidates := s.candidates ++ [crawlCandidate env C url snap] }
  | .click =>
    if s.clicks ≥ C.maxClicks then
      .done ⟨s.candidates, s.fetched ++ [url]⟩
    else
      match snap.links.find? (fun l => decision.target == some l.id) with
      | none => .next (navCalledState s rest url)
      | some link =>
        if !isDomainAllowed env link.href C.allowlist then
          .next (navCalledState s rest url)
        else if (url :: s.visited).contains link.href then
          .next (navCalledState s rest url)
        else if depth + 1 > C.maxDepth then
          .next (navCalledState s rest url)
        else
          .next { navCalledState s rest url with
                    queue := rest ++ [(link.href, depth + 1)],
                    clicks := s.clicks + 1 }
  | .stop => .done ⟨s.candidates, s.fetched ++ [url]⟩

/-- One iteration of the `while (queue.length > 0)` loop of
`browseWithLLMFallback`, in source order: global-timeout check, max-pages
check, dequeue, duplicate-URL skip, allowlist skip, navigation (which can
fail and is then skipped), decision-oracle call, and the three-way action
dispatch. The oracle is a function of the call index so that runs are
quantified over arbitrary decision sequences; `clock` supplies the
`Date.now()` reading of each iteration. -/
def crawlStep (env : CrawlEnv) (C : CrawlConfig) (oracle : ℕ → OracleOutcome)
    (clock : ℕ → ℚ) (s : CrawlState) : StepOutcome :=
  match s.queue with
  | [] => .done ⟨s.candidates, s.fetched⟩
  | (url, depth) :: rest =>
    if clock s.iter - C.startTime > C.timeoutMs then
      .done ⟨s.candidates, s.fetched⟩
    else if s.pagesVisited ≥ C.maxPages then
      .done ⟨s.candidates, s.fetched⟩
    else if s.visited.contains url then
      .next (skipState s rest)
    else if !isDomainAllowed env url C.allowlist then
      .next (skipState s rest)
    else
      match env.fetchPage url with
      | none => .next (navState s rest url)
      | some snap =>
        handleDecision env C s rest url depth snap (decisionOf (oracle s.calls))

/-- Lexicographic helper: the first component decreases. -/
theorem lexLeft {a a' b b' : ℕ} (h : a' < a) :
    Prod.Lex (· < ·) (· < ·) (a', b') (a, b) :=
  Prod.Lex.left _ _ h

/-- Lexicographic helper: first component equal, second decreases. -/
theorem lexRight {a b b' : ℕ} (h : b' < b) :
    Prod.Lex (· < ·) (· < ·) (a, b') (a, b) :=
  Prod.Lex.right _ h

/-- Every continuing state produced by `handleDecision` has spent one page
of the budget. -/
theorem handleDecision_next_pages {env C s rest url depth snap decision s'}
    (h : handleDecision env C s rest url depth snap decision = .next s') :
    s'.pagesVisited = s.pagesVisited + 1 := by
  unfold handleDecision at h
  split at h
  · split at h
    · exact StepOutcome.noConfusion h
    · injection h with h
      subst h
      rfl
  · split at h
    · exact StepOutcome.noConfusion h
    · split at h
      · injection h with h
        subst h
        rfl
      · split at h
        · injection h with h
          subst h
          rfl
        split at h
        · injection h with h
          subst h
          rfl
        split at h
        · injection h with h
          subst h
          rfl
        · injection h with h
          subst h
          rfl
  · exact StepOutcome.noConfusion h

/-- Every continuing iteration strictly decreases the pair
(remaining page budget, queue length): an iteration that navigates spends
one page of the budget, and an iteration that skips shortens the queue
without touching the budget. -/
theorem crawlStep_next_measure (env : CrawlEnv) (C : CrawlConfig)
    (oracle : ℕ → OracleOutcome) (clock : ℕ → ℚ) (s s' : CrawlState)
    (h : crawlStep env C oracle clock s = .next s') :
    Prod.Lex (· < ·) (· < ·)
      (C.maxPages - s'.pagesVisited, s'.queue.length)
      (C.maxPages - s.pagesVisited, s.queue.length) := by
  unfold crawlStep at h
  split at h
  · exact StepOutcome.noConfusion h
  · rename_i url depth rest hq
    rw [hq]
    split at h
    · exact StepOutcome.noConfusion h
    split at h
    · exact StepOutcome.noConfusion h
    rename_i hpages
    split at h
    · injection h with h
      subst h
      exact lexRight (by simp [skipState])
    split at h
    · injection h with h
      subst h
      exact lexRight (by simp [skipState])
    · split at h
      · injection h with h
        subst h
        exact lexLeft (by simp [navState]; omega)
      · have hp := handleDecision_next_pages h
        exact lexLeft (by rw [hp]; omega)

/-- The exploration loop: iterate `crawlStep` until it finishes. -/
def crawlLoop (env : CrawlEnv) (C : CrawlConfig) (oracle : ℕ → OracleOutcome)
    (clock : ℕ → ℚ) (s : CrawlState) : CrawlResult :=
  match h : crawlStep env C oracle clock s with
  | .done r => r
  | .next s' => crawlLoop env C oracle clock s'
termination_by (C.maxPages - s.pagesVisited, s.queue.length)
decreasing_by exact crawlStep_next_measure env C oracle clock s s' h

/-- Unfolding rule: a finishing step ends the loop with its result. -/
theorem crawlLoop_done {env C oracle clock s r}
    (h : crawlStep env C oracle clock s = .done r) :
    crawlLoop env C oracle clock s = r := by
  rw [crawlLoop]
  split
  · rename_i r' hr
    rw [h] at hr
    cases hr
    rfl
  · rename_i s' hs
    rw [h] at hs
    cases hs

/-- Unfolding rule: a continuing step keeps looping from the new state. -/
theorem crawlLoop_next {env C oracle clock s s'}
    (h : crawlStep env C oracle clock s = .next s') :
    crawlLoop env C oracle clock s = crawlLoop env C oracle clock s' := by
  rw [crawlLoop]
  split
  · rename_i r' hr
    rw [h] at hr
    cases hr
  · rename_i t ht
    rw [h] at ht
    cases ht
    rfl

/-- Loop-invariant rule: a property preserved by every continuing step and
transported to the result by every finishing step holds of the loop
output. -/
theorem crawlLoop_inv (env : CrawlEnv) (C : CrawlConfig)
    (oracle : ℕ → OracleOutcome) (clock : ℕ → ℚ)
    (P : CrawlState → Prop) (Q : CrawlResult → Prop)
    (hnext : ∀ s s', crawlStep env C oracle clock s = .next s' → P s → P s')
    (hdone : ∀ s r, crawlStep env C oracle clock s = .done r → P s → Q r)
    (s : CrawlState) (hP : P s) : Q (crawlLoop env C oracle clock s) := by
  match h : crawlStep env C oracle clock s with
  | .done r =>
    rw [crawlLoop_done h]
    exact hdone s r h hP
  | .next s' =>
    rw [crawlLoop_next h]
    exact crawlLoop_inv env C oracle clock P Q hnext hdone s' (hnext s s' h hP)
termination_by (C.maxPages - s.pagesVisited, s.queue.length)
decreasing_by exact crawlStep_next_measure env C oracle clock s s' h

/-- The effective domain allowlist of a run: the configured one, or — when
that is empty — the seed URL's hostname when it parses, else empty. -/
def effectiveAllowlist (env : CrawlEnv) (opts : FallbackBrowsingOptions) : List String :=
  if opts.domainAllowlist.isEmpty then
    match env.hostname opts.seedUrl with
    | some h => [h]
    | none => []
  else opts.domainAllowlist

/-- The initial loop state: a queue holding the seed at depth zero and
every counter at zero. -/
def initialCrawlState (seedUrl : String) : CrawlState :=
  ⟨[(seedUrl, 0)], [], [], 0, 0, 0, 0, []⟩

/-- The run configuration assembled by `browseWithLLMFallback` from its
resolved options, the effective allowlist and the entry timestamp. -/
def crawlConfigOf (env : CrawlEnv) (opts : FallbackBrowsingOptions)
    (startTime : ℚ) : CrawlConfig :=
  ⟨opts.sourceId, effectiveAllowlist env opts, opts.maxPages, opts.maxClicks,
   opts.maxDepth, opts.timeoutMs, opts.maxCandidates, startTime⟩

/-- Embeds `browseWithLLMFallback`: derive the allowlist (aborting with no
candidates and no navigation when it stays empty) and run the exploration
loop from the seed. `startTime` is the `Date.now()` reading taken at entry
and `clock` the reading of each loop iteration. -/
def browseWithLLMFallback (env : CrawlEnv) (opts : FallbackBrowsingOptions)
    (oracle : ℕ → OracleOutcome) (clock : ℕ → ℚ) (startTime : ℚ) : CrawlResult :=
  if (effectiveAllowlist env opts).isEmpty then ⟨[], []⟩
  else
    crawlLoop env (crawlConfigOf env opts startTime) oracle clock
      (initialCrawlState opts.seedUrl)

/-! ## Feedback scoring engine (`src/feedback.ts`) -/

/-- The five feedback actions. -/
inductive FeedbackAction where
  | LIKE
  | DISLIKE
  | SAVE
  | OPENED
  | IGNORED
deriving DecidableEq, Repr

/-- Whether feedback was explicit (user pressed a link) or implicit. -/
inductive FeedbackConfidence where
  | explicit
  | implicit
deriving DecidableEq, Repr

/-- Where a feedback event came from. -/
inductive FeedbackSource where
  | pushover
  | system
  | dashboard
deriving DecidableEq, Repr

/-- Weight table for explicit feedback. -/
def EXPLICIT_WEIGHTS : FeedbackAction → ℚ
  | .LIKE => 1
  | .DISLIKE => -1
  | .SAVE => 3/2
  | .OPENED => 0
  | .IGNORED => 0

/-- Weight table for implicit feedback. -/
def IMPLICIT_WEIGHTS : FeedbackAction → ℚ
  | .LIKE => 0
  | .DISLIKE => 0
  | .SAVE => 0
  | .OPENED => 3/10
  | .IGNORED => -1/5

/-- Fixed-point scale of relevance scores (two implied decimals). -/
def SCORE_SCALE : ℚ := 100

def DECAY_HALF_LIFE_HOURS : ℚ := 36

/-- Scaled threshold below which (strictly) a story gets suppressed. -/
def SUPPRESSION_THRESHOLD : ℤ := -150

def MIN_SUPPRESSION_HOURS : ℤ := 6

def MAX_SUPPRESSION_HOURS : ℤ := 48

def SUPPRESSION_HOURS_PER_POINT : ℤ := 2

def TAG_ADJUSTMENT_FACTOR : ℚ := 1/10

def SOURCE_ADJUSTMENT_FACTOR : ℚ := 1/20

/-- Initial scaled relevance score of a freshly matched story. -/
def INITIAL_RELEVANCE_SCORE : ℤ := 150

def TOPIC_IMPLICIT_SCALE : ℚ := 2/5

def TOPIC_EXPLICIT_SCALE : ℚ := 7/10

/-- The action list the scoring loop checks membership against. -/
def FEEDBACK_ACTIONS : List FeedbackAction :=
  [.LIKE, .DISLIKE, .SAVE, .OPENED, .IGNORED]

/-- A persisted story row (`stories` table). The timestamp columns not read
by the scoring or selection code (`firstSeenAt`, `lastNotifiedAt`) are
omitted. `relevanceScore` is NOT NULL in the schema, so it is a plain
integer here and the defensive `?? SCORE_SCALE` fallback of
`computeRelevanceScore` is unreachable. -/
structure Story where
  id : ℤ
  title : String
  url : Option String
  score : Option ℤ
  rank : Option ℤ
  date : String
  reason : Option String
  relevanceScore : ℤ
  notificationSent : Bool
  suppressedUntil : Option ℚ
deriving DecidableEq, Repr

/-- A persisted feedback event (`feedback_events` table); `metadata` keeps
the serialized JSON opaque. The generated primary key is not modelled. -/
structure FeedbackEvent where
  storyId : ℤ
  action : FeedbackAction
  confidence : FeedbackConfidence
  source : FeedbackSource
  createdAt : ℚ
  metadata : Option String
deriving DecidableEq, Repr

/-- Embeds `decayFactor`: hours elapsed since the event (clamped at zero
for future timestamps, which the source merely logs) fed into an
exponential with a 36-hour half life. -/
noncomputable def decayFactor (now createdAt : ℚ) : ℝ :=
  let hoursAgo : ℚ := max 0 ((now - createdAt) / 3600000)
  Real.exp (-(Real.log 2 / (DECAY_HALF_LIFE_HOURS : ℝ)) * (hoursAgo : ℝ))

/-- Weight of one event:
`event.confidence === 'implicit' ? IMPLICIT_WEIGHTS[action] : EXPLICIT_WEIGHTS[action]`. -/
def eventWeight (e : FeedbackEvent) : ℚ :=
  match e.confidence with
  | .implicit => IMPLICIT_WEIGHTS e.action
  | .explicit => EXPLICIT_WEIGHTS e.action

/-- Strip one leading `www.` / `m.` / `mobile.` from a hostname. The
ordered regex alternation of the source tries `m.` before `mobile.`, so
`mobile.` can never fire; the chain below reproduces that order exactly. -/
def stripMobileHost (h : String) : String :=
  if listStartsWith h.data "www.".data then String.mk (h.data.drop 4)
  else if listStartsWith h.data "m.".data then String.mk (h.data.drop 2)
  else if listStartsWith h.data "mobile.".data then String.mk (h.data.drop 7)
  else h

/-- Characters admitted inside a URL scheme after the leading letter. -/
def isSchemeChar (c : Char) : Bool :=
  c.isAlpha || c.isDigit || c == '+' || c == '-' || c == '.'

/-- Scan scheme characters until the literal `://`. -/
def schemeTailChars : List Char → Bool
  | ':' :: '/' :: '/' :: _ => true
  | c :: rest => isSchemeChar c && schemeTailChars rest
  | [] => false

/-- The anchored scheme test of the source. -/
def hasUrlScheme (s : String) : Bool :=
  match s.data with
  | [] => false
  | c :: rest => c.isAlpha && schemeTailChars rest

/-- Embeds the story-host extraction of `computeRelevanceScore`: a falsy
URL yields no host; otherwise parse the trimmed URL, retrying with an
`https://` scheme glued on when the first parse throws, and strip the
mobile marker from a successful parse. -/
def storyHostOf (hostname : String → Option String) : Option String → Option String
  | none => none
  | some u =>
    if u == "" then none
    else
      let raw := jsTrim u
      match hostname raw with
      | some h => some (stripMobileHost h)
      | none =>
        let normalized := if hasUrlScheme raw then raw else "https://" ++ raw
        match hostname normalized with
        | some h => some (stripMobileHost h)
        | none => none

/-- Result of one score computation. The human-readable `reasons` log of
the source carries no state and is omitted. -/
structure RelevanceComputation where
  relevanceScore : ℤ
  suppressedUntil : Option ℚ
deriving DecidableEq, Repr

/-- Accumulator of the event loop: running aggregate, the single per-host
bucket (the story has one fixed host, so the source's map holds at most
one key), and one bucket per feedback source. -/
structure ScoreAcc where
  aggregate : ℝ
  tagTotal : ℝ
  srcPushover : ℝ
  srcSystem : ℝ
  srcDashboard : ℝ

/-- Add one contribution to the bucket of its feedback source. -/
def ScoreAcc.bumpSource (acc : ScoreAcc) (src : FeedbackSource) (c : ℝ) : ScoreAcc :=
  match src with
  | .pushover => { acc with srcPushover := acc.srcPushover + c }
  | .system => { acc with srcSystem := acc.srcSystem + c }
  | .dashboard => { acc with srcDashboard := acc.srcDashboard + c }

/-- One iteration of the event loop of `computeRelevanceScore`: skip
unknown or zero-weight events, otherwise add the decayed contribution to
the aggregate, to the host bucket (when the story has a host) and to the
feedback-source bucket. -/
noncomputable def scoreFold (hostKnown : Bool) (now : ℚ) (acc : ScoreAcc)
    (e : FeedbackEvent) : ScoreAcc :=
  if ¬ FEEDBACK_ACTIONS.contains e.action then acc
  else if eventWeight e = 0 then acc
  else
    let contribution := (eventWeight e : ℝ) * (SCORE_SCALE : ℝ) * decayFactor now e.createdAt
    ScoreAcc.bumpSource
      { acc with aggregate := acc.aggregate + contribution,
                 tagTotal := if hostKnown then acc.tagTotal + contribution else acc.tagTotal }
      e.source contribution

/-- Embeds `calculateSuppressionHours`: clamp(round(|score| / 100) * 2, 6, 48). -/
def calculateSuppressionHours (score : ℤ) : ℤ :=
  min MAX_SUPPRESSION_HOURS
    (max MIN_SUPPRESSION_HOURS
      (jsRoundQ ((|score| : ℚ) / SCORE_SCALE) * SUPPRESSION_HOURS_PER_POINT))

/-- The suppression update at the end of `computeRelevanceScore`: strictly
below the threshold a fresh window opens; a positive score clears a stored
window that still lies in the future; otherwise the stored value stays. -/
def applySuppression (roundedScore : ℤ) (stored : Option ℚ) (now : ℚ) : Option ℚ :=
  if roundedScore < SUPPRESSION_THRESHOLD then
    some (now + (calculateSuppressionHours roundedScore : ℚ) * 3600000)
  else
    match stored with
    | some t => if roundedScore > 0 ∧ now < t then none else some t
    | none => none

/-- Embeds `computeRelevanceScore`: fold the full event list over the
stored baseline, apply the domain and feedback-source biases once (the
source's inequality guards only skip adding an exact zero, which is the
identity, plus a log line), round, and update the suppression window.
`now` is the single `Date.now()` instant of the computation. -/
noncomputable def computeRelevanceScore (hostname : String → Option String)
    (story : Story) (feedbackEvents : List FeedbackEvent) (now : ℚ) :
    RelevanceComputation :=
  let storyHost := storyHostOf hostname story.url
  let acc := feedbackEvents.foldl (scoreFold storyHost.isSome now)
    ⟨(story.relevanceScore : ℝ), 0, 0, 0, 0⟩
  let tagAdjustment := acc.tagTotal * (TAG_ADJUSTMENT_FACTOR : ℝ)
  let sourceAdjustment := acc.srcPushover * (SOURCE_ADJUSTMENT_FACTOR : ℝ) +
    acc.srcSystem * (SOURCE_ADJUSTMENT_FACTOR : ℝ) +
    acc.srcDashboard * (SOURCE_ADJUSTMENT_FACTOR : ℝ)
  let roundedScore := jsRoundR (acc.aggregate + tagAdjustment + sourceAdjustment)
  ⟨roundedScore, applySuppression roundedScore story.suppressedUntil now⟩

/-- A story whose stored baseline is reset to the initial score. -/
def storyAtInitialScore (story : Story) : Story :=
  { story with relevanceScore := INITIAL_RELEVANCE_SCORE }

/-- The replay path of spec section 8: fold the full `FeedbackEvent`
history forward from `INITIAL_RELEVANCE_SCORE`. Per the design note of
spec section 9 both the replay path and the incremental path share the one
implementation `computeRelevanceScore`; replaying is running it on a
baseline equal to the initial score. -/
noncomputable def replayRelevanceFromInitial (hostname : String → Option String)
    (story : Story) (feedbackEvents : List FeedbackEvent) (now : ℚ) :
    RelevanceComputation :=
  computeRelevanceScore hostname (storyAtInitialScore story) feedbackEvents now

/-! ## Persistent store and storage layer (`src/storage.ts`) -/

/-- A topic aggregate row (`topics` table). -/
structure Topic where
  id : ℤ
  name : String
  score : ℤ
deriving DecidableEq, Repr

/-- A story-to-topic link (`story_topics` table, composite primary key). -/
structure StoryTopic where
  storyId : ℤ
  topicId : ℤ
  source : String
  weight : ℤ
deriving DecidableEq, Repr

/-- The relevant slice of the SQLite database, threaded explicitly. -/
structure DB where
  stories : List Story
  events : List FeedbackEvent
  topics : List Topic
  storyTopics : List StoryTopic
deriving DecidableEq, Repr

/-- Store errors: the Prisma unique-constraint code and any other store
failure. -/
inductive PrismaError where
  | P2002
  | storeFailure
deriving DecidableEq, Repr

/-- Caller-supplied story fields of `saveStory` (`StoryInput`). -/
structure StoryInput where
  id : ℤ
  title : String
  url : Option String
  score : Option ℤ
  rank : Option ℤ
  date : String
  reason : Option String
  relevanceScore : Option ℤ
  notificationSent : Option Bool
deriving DecidableEq, Repr

/-- Default relevance score used by `saveStory` when none is supplied. -/
def BASE_RELEVANCE_SCORE : ℤ := 100

/-- The row `saveStory` asks the store to create; `suppressedUntil` takes
its column default, null. -/
def storyRowOf (input : StoryInput) : Story :=
  ⟨input.id, input.title, input.url, input.score, input.rank, input.date,
   input.reason, input.relevanceScore.getD BASE_RELEVANCE_SCORE,
   input.notificationSent.getD false, none⟩

/-- The store's `story.create`: the primary key is unique, so creating a
row whose id already exists fails with `P2002` and leaves the table
unchanged. -/
def prismaStoryCreate (row : Story) (stories : List Story) :
    Except PrismaError (List Story) :=
  if stories.any (fun s => s.id == row.id) then .error .P2002
  else .ok (stories ++ [row])

/-- Embeds `saveStory`: create the row, swallow a `P2002` duplicate-key
violation (preserving INSERT OR IGNORE semantics) and rethrow anything
else. -/
def saveStory (input : StoryInput) (stories : List Story) :
    Except PrismaError (List Story) :=
  match prismaStoryCreate (storyRowOf input) stories with
  | .ok stories' => .ok stories'
  | .error .P2002 => .ok stories
  | .error e => .error e

/-- Failure injection for the store: which story-row updates throw. -/
structure RefreshEnv where
  updateFails : ℤ → Bool

/-- The feedback events of one story, as `include: feedbackEvents` loads
them. -/
def eventsFor (db : DB) (storyId : ℤ) : List FeedbackEvent :=
  db.events.filter (fun e => e.storyId == storyId)

/-- Replace the row with the given story's id. -/
def updateStoryRow (stories : List Story) (s' : Story) : List Story :=
  stories.map (fun s => if s.id == s'.id then s' else s)

/-- Embeds `refreshRelevance`: recompute the score from the loaded events;
when the score or the suppression window changed, write the row back
(which can fail in the store) and return the updated story, else return
the story untouched without a store write. -/
noncomputable def refreshRelevance (hostname : String → Option String)
    (env : RefreshEnv) (story : Story) (events : List FeedbackEvent)
    (now : ℚ) : Except PrismaError Story :=
  let computation := computeRelevanceScore hostname story events now
  if computation.relevanceScore ≠ story.relevanceScore ∨
      story.suppressedUntil ≠ computation.suppressedUntil then
    if env.updateFails story.id then .error .storeFailure
    else .ok { story with relevanceScore := computation.relevanceScore,
                          suppressedUntil := computation.suppressedUntil }
  else .ok story

/-- Stories eligible for delivery before refreshing: unsent, and not
suppressed into the future (`suppressedUntil` null or not after `now`). -/
def unsentPool (db : DB) (now : ℚ) : List Story :=
  db.stories.filter (fun s =>
    !s.notificationSent &&
      (match s.suppressedUntil with
       | none => true
       | some t => decide (t ≤ now)))

/-- The delivery order: relevance score descending, raw external score
(null as zero) descending — the comparator of both the SQL `orderBy` and
the in-memory `sort`. -/
def storyBefore (a b : Story) : Bool :=
  (b.relevanceScore < a.relevanceScore) ||
    (a.relevanceScore == b.relevanceScore && b.score.getD 0 ≤ a.score.getD 0)

/-- Insertion step of the stable sort by `storyBefore`. -/
def insertStory (x : Story) : List Story → List Story
  | [] => [x]
  | y :: t => if storyBefore x y then x :: y :: t else y :: insertStory x t

/-- Stable sort of stories by the delivery order. -/
def sortStories (l : List Story) : List Story := l.foldr insertStory []

/-- The sequential refresh loop of `getUnsentRelevantStories`. There is no
try/catch around the per-story refresh: the first store error escapes the
loop immediately, abandoning the remaining stories; earlier row updates
stay persisted. -/
noncomputable def refreshAll (hostname : String → Option String)
    (env : RefreshEnv) (now : ℚ) :
    List Story → DB → List Story → Except PrismaError (List Story) × DB
  | [], db, acc => (.ok acc, db)
  | s :: rest, db, acc =>
    match refreshRelevance hostname env s (eventsFor db s.id) now with
    | .error e => (.error e, db)
    | .ok s' =>
      refreshAll hostname env now rest
        { db with stories := updateStoryRow db.stories s' } (acc ++ [s'])

/-- Embeds `getUnsentRelevantStories`: load the unsent unsuppressed pool in
delivery order, refresh each story's relevance sequentially, re-sort and
return — together with the resulting store state. An uncaught refresh
error propagates to the caller. -/
noncomputable def getUnsentRelevantStories (hostname : String → Option String)
    (env : RefreshEnv) (db : DB) (now : ℚ) :
    Except PrismaError (List Story) × DB :=
  match refreshAll hostname env now (sortStories (unsentPool db now)) db [] with
  | (.error e, db') => (.error e, db')
  | (.ok refreshed, db') => (.ok (sortStories refreshed), db')

/-- One feedback submission (`FeedbackPayload`); `metadata` is kept as the
already-serialized JSON string. -/
structure FeedbackPayload where
  storyId : ℤ
  action : FeedbackAction
  confidence : FeedbackConfidence
  source : FeedbackSource
  metadata : Option String
deriving DecidableEq, Repr

/-- The topic ids linked to a story. -/
def linkedTopicIds (db : DB) (storyId : ℤ) : List ℤ :=
  (db.storyTopics.filter (fun l => l.storyId == storyId)).map (·.topicId)

/-- Embeds `recordFeedbackEvent`: append the event, load the story with its
(now extended) event history, recompute and persist the score, then — for
a nonzero topic delta — atomically increment every linked topic by the
same scaled delta. A missing story returns null with the event already
persisted. The store operations of this embedding are total, so the
source's catch-all (log and return null) has nothing to catch. -/
noncomputable def recordFeedbackEvent (hostname : String → Option String)
    (payload : FeedbackPayload) (db : DB) (now : ℚ) :
    Option RelevanceComputation × DB :=
  let ev : FeedbackEvent :=
    ⟨payload.storyId, payload.action, payload.confidence, payload.source,
     now, payload.metadata⟩
  let db1 : DB := { db with events := db.events ++ [ev] }
  match db1.stories.find? (fun s => s.id == payload.storyId) with
  | none => (none, db1)
  | some story =>
    let computation :=
      computeRelevanceScore hostname story (eventsFor db1 payload.storyId) now
    let updatedRow : Story :=
      { story with relevanceScore := computation.relevanceScore,
                   suppressedUntil := computation.suppressedUntil }
    let db2 : DB := { db1 with stories := updateStoryRow db1.stories updatedRow }
    let topicDelta :=
      (match payload.confidence with
       | .implicit => IMPLICIT_WEIGHTS
       | .explicit => EXPLICIT_WEIGHTS) payload.action
    if topicDelta = 0 then (some computation, db2)
    else
      let scaled := jsRoundQ (topicDelta * SCORE_SCALE *
        (match payload.confidence with
         | .implicit => TOPIC_IMPLICIT_SCALE
         | .explicit => TOPIC_EXPLICIT_SCALE))
      let topicIds := linkedTopicIds db2 payload.storyId
      if topicIds.isEmpty then (some computation, db2)
      else
        (some computation,
         { db2 with topics := db2.topics.map (fun t =>
             if topicIds.contains t.id then { t with score := t.score + scaled }
             else t) })

/-! ## Claim theorems -/

/-- C10: calling `saveStory` with an id that already exists in the store
returns normally (the P2002 duplicate-key violation is swallowed) and
leaves the store — hence every field of the already-stored story —
unchanged, preserving INSERT OR IGNORE semantics. -/
theorem saveStory_duplicate_id_noop (input : StoryInput) (stories : List Story)
    (h : ∃ s ∈ stories, s.id = input.id) :
    saveStory input stories = .ok stories := by
  obtain ⟨s, hs, hid⟩ := h
  have hany : stories.any (fun s => s.id == (storyRowOf input).id) = true := by
    rw [List.any_eq_true]
    exact ⟨s, hs, by simp [storyRowOf, hid]⟩
  simp [saveStory, prismaStoryCreate, hany]

/-- Witness for C10 at a concrete store: a second insert with id 1 and
different field values is ignored. -/
theorem saveStory_duplicate_id_noop_witness :
    saveStory ⟨1, "dup", none, none, none, "2026-01-02", none, some 150, some true⟩
        [⟨1, "orig", none, none, none, "2026-01-01", none, 100, false, none⟩] =
      .ok [⟨1, "orig", none, none, none, "2026-01-01", none, 100, false, none⟩] :=
  saveStory_duplicate_id_noop _ _
    ⟨⟨1, "orig", none, none, none, "2026-01-01", none, 100, false, none⟩,
     by simp, rfl⟩

/-- C9: with an empty `domainAllowlist`, the effective allowlist of a run
becomes the seed URL's hostname; when the seed URL has no parseable host
the run aborts immediately, returning no candidates and fetching no page. -/
theorem empty_allowlist_derivation_and_abort (env : CrawlEnv)
    (opts : FallbackBrowsingOptions) (oracle : ℕ → OracleOutcome)
    (clock : ℕ → ℚ) (startTime : ℚ)
    (hempty : opts.domainAllowlist = []) :
    (∀ h, env.hostname opts.seedUrl = some h →
      effectiveAllowlist env opts = [h]) ∧
    (env.hostname opts.seedUrl = none →
      browseWithLLMFallback env opts oracle clock startTime = ⟨[], []⟩) := by
  constructor
  · intro h hh
    simp [effectiveAllowlist, hempty, hh]
  · intro hn
    simp [browseWithLLMFallback, effectiveAllowlist, hempty, hn]

/-- Witness for C9: a parseable seed derives a singleton allowlist, and an
unparseable seed aborts with no candidates and no fetches. -/
theorem empty_allowlist_derivation_and_abort_witness :
    effectiveAllowlist
        ⟨fun _ => some "example.com", fun _ => none,
         fun _ => ⟨"", "", [], [], false, ""⟩⟩
        ⟨"src", "https://example.com", [], 3, 2, 2, 120000, 2⟩ =
      ["example.com"] ∧
    browseWithLLMFallback
        ⟨fun _ => none, fun _ => none, fun _ => ⟨"", "", [], [], false, ""⟩⟩
        ⟨"src", "not a url", [], 3, 2, 2, 120000, 2⟩
        (fun _ => .failure) (fun _ => 0) 0 =
      ⟨[], []⟩ :=
  ⟨(empty_allowlist_derivation_and_abort _ _ (fun _ => .failure) (fun _ => 0) 0
      rfl).1 "example.com" rfl,
   (empty_allowlist_derivation_and_abort _ _ _ _ _ rfl).2 rfl⟩

/-- The suppression window of a computation is `applySuppression` of its
rounded score over the stored window. -/
theorem computeRelevanceScore_suppression (hostname : String → Option String)
    (story : Story) (events : List FeedbackEvent) (now : ℚ) :
    (computeRelevanceScore hostname story events now).suppressedUntil =
      applySuppression (computeRelevanceScore hostname story events now).relevanceScore
        story.suppressedUntil now := rfl

/-- The clamp keeps suppression durations between 6 and 48 hours. -/
theorem calculateSuppressionHours_bounds (z : ℤ) :
    6 ≤ calculateSuppressionHours z ∧ calculateSuppressionHours z ≤ 48 := by
  unfold calculateSuppressionHours MIN_SUPPRESSION_HOURS MAX_SUPPRESSION_HOURS
  omega

/-- C2 (amended): when the resulting `relevanceScore` is strictly below
the -150 threshold, `suppressedUntil` is set to
now + clamp(round(|score|/SCORE_SCALE)·2h, 6h, 48h), a time between
now+6h and now+48h; and when the resulting score is positive while the
stored `suppressedUntil` is still in the future, it is cleared to null.
(The source compares with strict `<`, so a score of exactly -150 opens no
window — the boundary case the original claim got wrong.) -/
theorem suppression_window_strict_threshold_bounds
    (hostname : String → Option String) (story : Story)
    (events : List FeedbackEvent) (now : ℚ) :
    ((computeRelevanceScore hostname story events now).relevanceScore <
        SUPPRESSION_THRESHOLD →
      (computeRelevanceScore hostname story events now).suppressedUntil =
        some (now +
          (calculateSuppressionHours
            (computeRelevanceScore hostname story events now).relevanceScore : ℚ) *
          3600000) ∧
      ∀ t, (computeRelevanceScore hostname story events now).suppressedUntil =
          some t →
        now + 6 * 3600000 ≤ t ∧ t ≤ now + 48 * 3600000) ∧
    (∀ t, 0 < (computeRelevanceScore hostname story events now).relevanceScore →
      story.suppressedUntil = some t → now < t →
      (computeRelevanceScore hostname story events now).suppressedUntil = none) := by
  constructor
  · intro hlt
    have hset : (computeRelevanceScore hostname story events now).suppressedUntil =
        some (now +
          (calculateSuppressionHours
            (computeRelevanceScore hostname story events now).relevanceScore : ℚ) *
          3600000) := by
      rw [computeRelevanceScore_suppression]
      unfold applySuppression
      rw [if_pos hlt]
    refine ⟨hset, ?_⟩
    intro t ht
    rw [hset] at ht
    obtain ⟨h6, h48⟩ :=
      calculateSuppressionHours_bounds
        (computeRelevanceScore hostname story events now).relevanceScore
    have h6Q : (6 : ℚ) ≤
        (calculateSuppressionHours
          (computeRelevanceScore hostname story events now).relevanceScore : ℚ) := by
      exact_mod_cast h6
    have h48Q : (calculateSuppressionHours
        (computeRelevanceScore hostname story events now).relevanceScore : ℚ) ≤ 48 := by
      exact_mod_cast h48
    cases ht
    constructor
    · nlinarith
    · nlinarith
  · intro t hpos hst hfut
    rw [computeRelevanceScore_suppression]
    unfold applySuppression
    rw [if_neg (by unfold SUPPRESSION_THRESHOLD; omega), hst]
    simp [hpos, hfut]

/-- Counterexample for C2 as frozen: a refresh that lands exactly on
relevanceScore = -150 satisfies the claim's trigger (score ≤ -150) but
opens no suppression window at all — the source compares strictly. -/
theorem suppression_not_set_at_threshold_boundary :
    (computeRelevanceScore (fun _ => none)
        ⟨1, "s", none, none, none, "2026-01-01", none, -150, false, none⟩
        [] 0).relevanceScore ≤ -150 ∧
    (computeRelevanceScore (fun _ => none)
        ⟨1, "s", none, none, none, "2026-01-01", none, -150, false, none⟩
        [] 0).suppressedUntil = none := by
  have heval : computeRelevanceScore (fun _ => none)
      ⟨1, "s", none, none, none, "2026-01-01", none, -150, false, none⟩ [] 0 =
      ⟨-150, none⟩ := by
    unfold computeRelevanceScore
    simp [scoreFold, jsRoundR, applySuppression, SUPPRESSION_THRESHOLD]
    norm_num
  rw [heval]
  simp

/-- Witness for the amended C2 at a concrete refresh: a score of -151
opens a window, and it lies inside [now+6h, now+48h]. -/
theorem suppression_window_strict_threshold_bounds_witness :
    ∃ t, (computeRelevanceScore (fun _ => none)
        ⟨1, "s", none, none, none, "2026-01-01", none, -151, false, none⟩
        [] 0).suppressedUntil = some t ∧
      (0 : ℚ) + 6 * 3600000 ≤ t ∧ t ≤ (0 : ℚ) + 48 * 3600000 := by
  have heval : (computeRelevanceScore (fun _ => none)
      ⟨1, "s", none, none, none, "2026-01-01", none, -151, false, none⟩
      [] 0).relevanceScore = -151 := by
    unfold computeRelevanceScore
    simp [scoreFold, jsRoundR]
    norm_num
  have h := (suppression_window_strict_threshold_bounds (fun _ => none)
      ⟨1, "s", none, none, none, "2026-01-01", none, -151, false, none⟩ [] 0).1
    (by rw [heval]; unfold SUPPRESSION_THRESHOLD; omega)
  exact ⟨_, h.1, (h.2 _ h.1).1, (h.2 _ h.1).2⟩

/-- Counterexample for C1 as frozen: once a refresh has been persisted
(stored score 255, which already contains the single LIKE's contribution),
recomputing incrementally from the stored baseline re-adds the full
history — 360 — while replaying from `INITIAL_RELEVANCE_SCORE` yields 255
at the same instant. Replay invariance fails for stories whose stored
baseline differs from the initial score. -/
theorem replay_invariance_fails_on_nonInitial_baseline :
    replayRelevanceFromInitial (fun _ => none)
        ⟨1, "s", none, none, none, "2026-01-01", none, 255, false, none⟩
        [⟨1, .LIKE, .explicit, .pushover, 0, none⟩] 0 ≠
      computeRelevanceScore (fun _ => none)
        ⟨1, "s", none, none, none, "2026-01-01", none, 255, false, none⟩
        [⟨1, .LIKE, .explicit, .pushover, 0, none⟩] 0 := by
  have h1 : replayRelevanceFromInitial (fun _ => none)
      ⟨1, "s", none, none, none, "2026-01-01", none, 255, false, none⟩
      [⟨1, .LIKE, .explicit, .pushover, 0, none⟩] 0 = ⟨255, none⟩ := by
    unfold replayRelevanceFromInitial storyAtInitialScore INITIAL_RELEVANCE_SCORE
    unfold computeRelevanceScore
    simp [scoreFold, jsRoundR, applySuppression, SUPPRESSION_THRESHOLD,
      FEEDBACK_ACTIONS, eventWeight, EXPLICIT_WEIGHTS, decayFactor,
      DECAY_HALF_LIFE_HOURS, SCORE_SCALE, ScoreAcc.bumpSource, storyHostOf,
      TAG_ADJUSTMENT_FACTOR, SOURCE_ADJUSTMENT_FACTOR]
    norm_num
  have h2 : computeRelevanceScore (fun _ => none)
      ⟨1, "s", none, none, none, "2026-01-01", none, 255, false, none⟩
      [⟨1, .LIKE, .explicit, .pushover, 0, none⟩] 0 = ⟨360, none⟩ := by
    unfold computeRelevanceScore
    simp [scoreFold, jsRoundR, applySuppression, SUPPRESSION_THRESHOLD,
      FEEDBACK_ACTIONS, eventWeight, EXPLICIT_WEIGHTS, decayFactor,
      DECAY_HALF_LIFE_HOURS, SCORE_SCALE, ScoreAcc.bumpSource, storyHostOf,
      TAG_ADJUSTMENT_FACTOR, SOURCE_ADJUSTMENT_FACTOR]
    norm_num
  rw [h1, h2]
  simp

/-- C1 (amended): folding the full history forward from
`INITIAL_RELEVANCE_SCORE` agrees with the incremental recomputation at the
same instant exactly when the story's stored baseline equals
`INITIAL_RELEVANCE_SCORE` (no refresh persisted yet); both paths share the
single implementation `computeRelevanceScore`. -/
theorem replay_matches_incremental_of_initial_baseline
    (hostname : String → Option String) (story : Story)
    (events : List FeedbackEvent) (now : ℚ)
    (h : story.relevanceScore = INITIAL_RELEVANCE_SCORE) :
    replayRelevanceFromInitial hostname story events now =
      computeRelevanceScore hostname story events now := by
  unfold replayRelevanceFromInitial
  have hs : storyAtInitialScore story = story := by
    cases story
    simp only [Story.relevanceScore] at h
    simp [storyAtInitialScore, h]
  rw [hs]

/-- Witness for the amended C1 at a freshly persisted story. -/
theorem replay_matches_incremental_of_initial_baseline_witness :
    replayRelevanceFromInitial (fun _ => none)
        ⟨1, "s", none, none, none, "2026-01-01", none, 150, false, none⟩
        [⟨1, .SAVE, .explicit, .dashboard, 0, none⟩] 0 =
      computeRelevanceScore (fun _ => none)
        ⟨1, "s", none, none, none, "2026-01-01", none, 150, false, none⟩
        [⟨1, .SAVE, .explicit, .dashboard, 0, none⟩] 0 :=
  replay_matches_incremental_of_initial_baseline _ _ _ _ rfl

/-- C7: an explicit SAVE recorded for a story with at least one linked
topic increments the score of every linked topic by the same full delta
round(1.5 · SCORE_SCALE · 0.7) = 105; the delta is not divided across the
topics. -/
theorem explicit_save_increments_every_topic_full_delta
    (hostname : String → Option String) (payload : FeedbackPayload)
    (db : DB) (now : ℚ)
    (ha : payload.action = .SAVE) (hc : payload.confidence = .explicit)
    (hstory : ∃ st, db.stories.find? (fun s => s.id == payload.storyId) = some st)
    (hlinks : linkedTopicIds db payload.storyId ≠ []) :
    (recordFeedbackEvent hostname payload db now).2.topics =
      db.topics.map (fun t =>
        if (linkedTopicIds db payload.storyId).contains t.id then
          { t with score := t.score + 105 } else t) ∧
    (105 : ℤ) = jsRoundQ (EXPLICIT_WEIGHTS .SAVE * SCORE_SCALE * TOPIC_EXPLICIT_SCALE) := by
  obtain ⟨st, hst⟩ := hstory
  obtain ⟨ss, ee, tt, lk⟩ := db
  have hne : ¬ ∀ a ∈ lk, ¬a.storyId = payload.storyId := by
    simpa [linkedTopicIds] using hlinks
  constructor
  · unfold recordFeedbackEvent
    norm_num [hst, ha, hc, EXPLICIT_WEIGHTS, SCORE_SCALE, TOPIC_EXPLICIT_SCALE,
      jsRoundQ, linkedTopicIds, hne]
    intro a _
    simp [linkedTopicIds]
  · norm_num [jsRoundQ, EXPLICIT_WEIGHTS, SCORE_SCALE, TOPIC_EXPLICIT_SCALE]

/-- Witness for C7: an explicit SAVE on a story linked to two topics bumps
both topic scores by the full 105, not half each. -/
theorem explicit_save_increments_every_topic_full_delta_witness :
    (recordFeedbackEvent (fun _ => none) ⟨1, .SAVE, .explicit, .pushover, none⟩
        ⟨[⟨1, "s", none, none, none, "2026-01-01", none, 150, false, none⟩], [],
         [⟨1, "ai", 10⟩, ⟨2, "rust", 20⟩],
         [⟨1, 1, "content", 45⟩, ⟨1, 2, "content", 45⟩]⟩ 0).2.topics =
      [⟨1, "ai", 115⟩, ⟨2, "rust", 125⟩] := by
  have h := explicit_save_increments_every_topic_full_delta (fun _ => none)
    ⟨1, .SAVE, .explicit, .pushover, none⟩
    ⟨[⟨1, "s", none, none, none, "2026-01-01", none, 150, false, none⟩], [],
     [⟨1, "ai", 10⟩, ⟨2, "rust", 20⟩],
     [⟨1, 1, "content", 45⟩, ⟨1, 2, "content", 45⟩]⟩ 0 rfl rfl
    ⟨⟨1, "s", none, none, none, "2026-01-01", none, 150, false, none⟩, rfl⟩
    (by simp [linkedTopicIds])
  rw [h.1]
  simp [linkedTopicIds]

/-- C4 (amended): a store failure while refreshing a story's score aborts
the whole batch — `getUnsentRelevantStories` has no per-story error
isolation, so the error propagates to the caller, no ranked list is
returned, and (when the failing story is the first processed) no other
story is refreshed and the store is left untouched. -/
theorem refresh_failure_aborts_batch (hostname : String → Option String)
    (env : RefreshEnv) (db : DB) (now : ℚ) (s : Story) (rest : List Story)
    (horder : sortStories (unsentPool db now) = s :: rest)
    (herr : refreshRelevance hostname env s (eventsFor db s.id) now =
      .error .storeFailure) :
    getUnsentRelevantStories hostname env db now = (.error .storeFailure, db) := by
  unfold getUnsentRelevantStories
  rw [horder]
  unfold refreshAll
  rw [herr]

/-- Counterexample for C4 as frozen: two unsent stories, the store update
of story 1 fails (its refresh opens a suppression window, forcing a
write). The batch aborts with the store error instead of isolating story 1:
no ranked list is produced, and story 2 is never refreshed or ranked —
the store comes back unchanged. -/
theorem refresh_failure_aborts_batch_cex :
    getUnsentRelevantStories (fun _ => none) ⟨fun i => i == 1⟩
        ⟨[⟨1, "a", none, none, none, "2026-01-01", none, -151, false, none⟩,
          ⟨2, "b", none, none, none, "2026-01-01", none, -200, false, none⟩],
         [], [], []⟩ 0 =
      (.error .storeFailure,
       ⟨[⟨1, "a", none, none, none, "2026-01-01", none, -151, false, none⟩,
         ⟨2, "b", none, none, none, "2026-01-01", none, -200, false, none⟩],
        [], [], []⟩) := by
  have hcomp : computeRelevanceScore (fun _ => none)
      ⟨1, "a", none, none, none, "2026-01-01", none, -151, false, none⟩ [] 0 =
      ⟨-151, some 21600000⟩ := by
    unfold computeRelevanceScore
    simp [scoreFold, jsRoundR, applySuppression, SUPPRESSION_THRESHOLD,
      calculateSuppressionHours, jsRoundQ, MIN_SUPPRESSION_HOURS,
      MAX_SUPPRESSION_HOURS, SUPPRESSION_HOURS_PER_POINT, SCORE_SCALE]
    norm_num
  have horder : sortStories (unsentPool
      ⟨[⟨1, "a", none, none, none, "2026-01-01", none, -151, false, none⟩,
        ⟨2, "b", none, none, none, "2026-01-01", none, -200, false, none⟩],
       [], [], []⟩ 0) =
      [⟨1, "a", none, none, none, "2026-01-01", none, -151, false, none⟩,
       ⟨2, "b", none, none, none, "2026-01-01", none, -200, false, none⟩] := by
    norm_num [unsentPool, sortStories, insertStory, storyBefore]
  have herr : refreshRelevance (fun _ => none) ⟨fun i => i == 1⟩
      ⟨1, "a", none, none, none, "2026-01-01", none, -151, false, none⟩ [] 0 =
      .error .storeFailure := by
    unfold refreshRelevance
    rw [hcomp]
    norm_num
    intro h
    exact Option.noConfusion h
  unfold getUnsentRelevantStories
  rw [horder]
  unfold refreshAll
  rw [show eventsFor
      ⟨[⟨1, "a", none, none, none, "2026-01-01", none, -151, false, none⟩,
        ⟨2, "b", none, none, none, "2026-01-01", none, -200, false, none⟩],
       [], [], []⟩ (1 : ℤ) = [] from rfl]
  rw [herr]

/-- Witness for the amended C4 at the same concrete store: applying the
abort theorem with its hypotheses discharged concretely. -/
theorem refresh_failure_aborts_batch_witness :
    getUnsentRelevantStories (fun _ => none) ⟨fun i => i == 1⟩
        ⟨[⟨1, "a", none, none, none, "2026-01-01", none, -151, false, none⟩],
         [], [], []⟩ 0 =
      (.error .storeFailure,
       ⟨[⟨1, "a", none, none, none, "2026-01-01", none, -151, false, none⟩],
        [], [], []⟩) := by
  have hcomp : computeRelevanceScore (fun _ => none)
      ⟨1, "a", none, none, none, "2026-01-01", none, -151, false, none⟩ [] 0 =
      ⟨-151, some 21600000⟩ := by
    unfold computeRelevanceScore
    simp [scoreFold, jsRoundR, applySuppression, SUPPRESSION_THRESHOLD,
      calculateSuppressionHours, jsRoundQ, MIN_SUPPRESSION_HOURS,
      MAX_SUPPRESSION_HOURS, SUPPRESSION_HOURS_PER_POINT, SCORE_SCALE]
    norm_num
  refine refresh_failure_aborts_batch (fun _ => none) ⟨fun i => i == 1⟩ _ 0
    ⟨1, "a", none, none, none, "2026-01-01", none, -151, false, none⟩ [] ?_ ?_
  · norm_num [unsentPool, sortStories, insertStory, storyBefore]
  · unfold refreshRelevance
    rw [show eventsFor
        ⟨[⟨1, "a", none, none, none, "2026-01-01", none, -151, false, none⟩],
         [], [], []⟩ (1 : ℤ) = [] from rfl]
    rw [hcomp]
    norm_num
    intro h
    exact Option.noConfusion h

/-- Field characterization of a continuing `handleDecision` outcome: the
navigation is recorded, the URL marked visited, a page spent, and the
candidate list either unchanged or extended by the extraction candidate of
this URL. -/
theorem handleDecision_next_cases {env C s rest url depth snap decision s'}
    (h : handleDecision env C s rest url depth snap decision = .next s') :
    s'.fetched = s.fetched ++ [url] ∧ s'.visited = url :: s.visited ∧
    s'.pagesVisited = s.pagesVisited + 1 ∧
    (s'.candidates = s.candidates ∨
      s'.candidates = s.candidates ++ [crawlCandidate env C url snap]) := by
  unfold handleDecision at h
  split at h
  · split at h
    · exact StepOutcome.noConfusion h
    · injection h with h
      subst h
      simp [navCalledState, navState]
  · split at h
    · exact StepOutcome.noConfusion h
    · split at h
      · injection h with h
        subst h
        simp [navCalledState, navState]
      · split at h
        · injection h with h
          subst h
          simp [navCalledState, navState]
        split at h
        · injection h with h
          subst h
          simp [navCalledState, navState]
        split at h
        · injection h with h
          subst h
          simp [navCalledState, navState]
        · injection h with h
          subst h
          simp [navCalledState, navState]
  · exact StepOutcome.noConfusion h

/-- Field characterization of a finishing `handleDecision` outcome. -/
theorem handleDecision_done_cases {env C s rest url depth snap decision r}
    (h : handleDecision env C s rest url depth snap decision = .done r) :
    r.fetched = s.fetched ++ [url] ∧
    (r.candidates = s.candidates ∨
      r.candidates = s.candidates ++ [crawlCandidate env C url snap]) := by
  unfold handleDecision at h
  split at h
  · split at h
    · injection h with h
      subst h
      simp
    · exact StepOutcome.noConfusion h
  · split at h
    · injection h with h
      subst h
      simp
    · split at h
      · exact StepOutcome.noConfusion h
      · split at h
        · exact StepOutcome.noConfusion h
        split at h
        · exact StepOutcome.noConfusion h
        split at h
        · exact StepOutcome.noConfusion h
        · exact StepOutcome.noConfusion h
  · injection h with h
    subst h
    simp

/-- Case analysis of a continuing loop iteration: either a skipped item
(no navigation, no state change beyond the queue and counters), or a
navigation to the freshly dequeued, unvisited, allowlisted URL. -/
theorem crawlStep_next_cases {env C oracle clock s s'}
    (h : crawlStep env C oracle clock s = .next s') :
    (s'.candidates = s.candidates ∧ s'.fetched = s.fetched ∧
     s'.visited = s.visited ∧ s'.pagesVisited = s.pagesVisited) ∨
    (∃ url depth rest, s.queue = (url, depth) :: rest ∧
      s.pagesVisited < C.maxPages ∧
      s.visited.contains url = false ∧
      isDomainAllowed env url C.allowlist = true ∧
      s'.fetched = s.fetched ++ [url] ∧ s'.visited = url :: s.visited ∧
      s'.pagesVisited = s.pagesVisited + 1 ∧
      (s'.candidates = s.candidates ∨
        ∃ snap, env.fetchPage url = some snap ∧
          s'.candidates = s.candidates ++ [crawlCandidate env C url snap])) := by
  unfold crawlStep at h
  split at h
  · exact StepOutcome.noConfusion h
  · rename_i url depth rest hq
    split at h
    · exact StepOutcome.noConfusion h
    split at h
    · exact StepOutcome.noConfusion h
    rename_i hpages
    split at h
    · injection h with h
      subst h
      left
      simp [skipState]
    split at h
    · injection h with h
      subst h
      left
      simp [skipState]
    rename_i hvis hallow
    · split at h
      · injection h with h
        subst h
        right
        refine ⟨url, depth, rest, hq, by omega, by simpa using hvis, by simpa using hallow, ?_⟩
        simp [navState]
      · rename_i snap hfetch
        right
        obtain ⟨hf, hv, hp, hc⟩ := handleDecision_next_cases h
        refine ⟨url, depth, rest, hq, by omega, by simpa using hvis, by simpa using hallow,
          hf, hv, hp, ?_⟩
        rcases hc with hc | hc
        · exact Or.inl hc
        · exact Or.inr ⟨snap, hfetch, hc⟩

/-- Case analysis of a finishing loop iteration: either the run ends
without navigating (queue drained, timeout, page budget, skip-free exits),
or it ends right after navigating to a fresh allowlisted URL. -/
theorem crawlStep_done_cases {env C oracle clock s r}
    (h : crawlStep env C oracle clock s = .done r) :
    (r.candidates = s.candidates ∧ r.fetched = s.fetched) ∨
    (∃ url depth rest, s.queue = (url, depth) :: rest ∧
      s.pagesVisited < C.maxPages ∧
      s.visited.contains url = false ∧
      isDomainAllowed env url C.allowlist = true ∧
      r.fetched = s.fetched ++ [url] ∧
      (r.candidates = s.candidates ∨
        ∃ snap, env.fetchPage url = some snap ∧
          r.candidates = s.candidates ++ [crawlCandidate env C url snap])) := by
  unfold crawlStep at h
  split at h
  · injection h with h
    subst h
    left
    simp
  · rename_i url depth rest hq
    split at h
    · injection h with h
      subst h
      left
      simp
    split at h
    · injection h with h
      subst h
      left
      simp
    rename_i hpages
    split at h
    · exact StepOutcome.noConfusion h
    split at h
    · exact StepOutcome.noConfusion h
    rename_i hvis hallow
    · split at h
      · exact StepOutcome.noConfusion h
      · rename_i snap hfetch
        right
        obtain ⟨hf, hc⟩ := handleDecision_done_cases h
        refine ⟨url, depth, rest, hq, by omega, by simpa using hvis, by simpa using hallow,
          hf, ?_⟩
        rcases hc with hc | hc
        · exact Or.inl hc
        · exact Or.inr ⟨snap, hfetch, hc⟩

/-- The safety invariant of the exploration loop: the navigation trace has
no duplicates, every fetched URL is marked visited, every fetched URL
passed the allowlist check, the trace length is the page counter, and the
page counter never exceeds the budget. -/
def crawlSafeInv (env : CrawlEnv) (C : CrawlConfig) (s : CrawlState) : Prop :=
  s.fetched.Nodup ∧ (∀ u ∈ s.fetched, u ∈ s.visited) ∧
  (∀ u ∈ s.fetched, isDomainAllowed env u C.allowlist = true) ∧
  s.fetched.length = s.pagesVisited ∧ s.pagesVisited ≤ C.maxPages

/-- The safety invariant is preserved by every continuing iteration. -/
theorem crawlSafeInv_next {env C oracle clock s s'}
    (h : crawlStep env C oracle clock s = .next s')
    (hP : crawlSafeInv env C s) : crawlSafeInv env C s' := by
  obtain ⟨hnd, hsub, hdom, hlen, hmax⟩ := hP
  rcases crawlStep_next_cases h with ⟨hc, hf, hv, hp⟩ |
    ⟨url, depth, rest, hq, hpages, hvis, hallow, hf, hv, hp, hc⟩
  · exact ⟨hf ▸ hnd, by rw [hf, hv]; exact hsub, by rw [hf]; exact hdom,
      by rw [hf, hp]; exact hlen, by rw [hp]; exact hmax⟩
  · have hnot : url ∉ s.fetched := fun hmem => by
      have hin := hsub url hmem
      simp at hvis
      exact hvis hin
    constructor
    · rw [hf]
      simp [List.nodup_append, hnd, hnot]
    refine ⟨?_, ?_, ?_, ?_⟩
    · intro u hu
      rw [hf] at hu
      rw [hv]
      rcases List.mem_append.mp hu with hu | hu
      · exact List.mem_cons_of_mem _ (hsub u hu)
      · simp at hu
        subst hu
        exact List.mem_cons_self _ _
    · intro u hu
      rw [hf] at hu
      rcases List.mem_append.mp hu with hu | hu
      · exact hdom u hu
      · simp at hu
        subst hu
        exact hallow
    · rw [hf, hp]
      simp [hlen]
    · omega

/-- The safety invariant transports to the result of a finishing
iteration: the final trace stays duplicate-free, allowlisted, and within
the page budget. -/
theorem crawlSafeInv_done {env C oracle clock s r}
    (h : crawlStep env C oracle clock s = .done r)
    (hP : crawlSafeInv env C s) :
    r.fetched.Nodup ∧ (∀ u ∈ r.fetched, isDomainAllowed env u C.allowlist = true) ∧
    r.fetched.length ≤ C.maxPages := by
  obtain ⟨hnd, hsub, hdom, hlen, hmax⟩ := hP
  rcases crawlStep_done_cases h with ⟨hc, hf⟩ |
    ⟨url, depth, rest, hq, hpages, hvis, hallow, hf, hc⟩
  · exact ⟨hf ▸ hnd, by rw [hf]; exact hdom, by rw [hf]; omega⟩
  · have hnot : url ∉ s.fetched := fun hmem => by
      have hin := hsub url hmem
      simp at hvis
      exact hvis hin
    refine ⟨?_, ?_, ?_⟩
    · rw [hf]
      simp [List.nodup_append, hnd, hnot]
    · intro u hu
      rw [hf] at hu
      rcases List.mem_append.mp hu with hu | hu
      · exact hdom u hu
      · simp at hu
        subst hu
        exact hallow
    · rw [hf]
      simp
      omega

/-- C5: within one crawl run — for every environment, every wall-clock
behaviour and every (possibly adversarial) sequence of oracle decisions —
no URL is navigated to more than once, every navigated URL passes the
domain-allowlist check (host equal to an allowed domain or a dot-separated
subdomain of one), and the number of pages navigated never exceeds
`maxPages`. -/
theorem crawl_run_safety_bounds (env : CrawlEnv) (opts : FallbackBrowsingOptions)
    (oracle : ℕ → OracleOutcome) (clock : ℕ → ℚ) (startTime : ℚ) :
    (browseWithLLMFallback env opts oracle clock startTime).fetched.Nodup ∧
    (∀ u ∈ (browseWithLLMFallback env opts oracle clock startTime).fetched,
      isDomainAllowed env u (effectiveAllowlist env opts) = true) ∧
    (browseWithLLMFallback env opts oracle clock startTime).fetched.length ≤
      opts.maxPages := by
  unfold browseWithLLMFallback
  split
  · simp
  · exact crawlLoop_inv env (crawlConfigOf env opts startTime) oracle clock
      (crawlSafeInv env (crawlConfigOf env opts startTime))
      (fun r => r.fetched.Nodup ∧
        (∀ u ∈ r.fetched, isDomainAllowed env u (effectiveAllowlist env opts) = true) ∧
        r.fetched.length ≤ opts.maxPages)
      (fun s s' h hP => crawlSafeInv_next h hP)
      (fun s r h hP => crawlSafeInv_done h hP)
      (initialCrawlState opts.seedUrl)
      (by simp [crawlSafeInv, initialCrawlState])

/-- Candidate-shape invariant: every accumulated candidate's id is the
URL-derived deterministic id of its own URL. -/
def candidateIdInv (s : CrawlState) : Prop :=
  ∀ c ∈ s.candidates, c.id = deriveStoryIdFromUrl c.url none

/-- The candidate-shape invariant is preserved by continuing iterations. -/
theorem candidateIdInv_next {env C oracle clock s s'}
    (h : crawlStep env C oracle clock s = .next s')
    (hP : candidateIdInv s) : candidateIdInv s' := by
  rcases crawlStep_next_cases h with ⟨hc, _, _, _⟩ |
    ⟨url, depth, rest, _, _, _, _, _, _, _, hc⟩
  · intro c hcmem
    rw [hc] at hcmem
    exact hP c hcmem
  · rcases hc with hc | ⟨snap, _, hc⟩
    · intro c hcmem
      rw [hc] at hcmem
      exact hP c hcmem
    · intro c hcmem
      rw [hc] at hcmem
      rcases List.mem_append.mp hcmem with hm | hm
      · exact hP c hm
      · simp at hm
        subst hm
        rfl

/-- The candidate-shape invariant transports to the run result. -/
theorem candidateIdInv_done {env C oracle clock s r}
    (h : crawlStep env C oracle clock s = .done r)
    (hP : candidateIdInv s) :
    ∀ c ∈ r.candidates, c.id = deriveStoryIdFromUrl c.url none := by
  rcases crawlStep_done_cases h with ⟨hc, _⟩ |
    ⟨url, depth, rest, _, _, _, _, _, hc⟩
  · intro c hcmem
    rw [hc] at hcmem
    exact hP c hcmem
  · rcases hc with hc | ⟨snap, _, hc⟩
    · intro c hcmem
      rw [hc] at hcmem
      exact hP c hcmem
    · intro c hcmem
      rw [hc] at hcmem
      rcases List.mem_append.mp hcmem with hm | hm
      · exact hP c hm
      · simp at hm
        subst hm
        rfl

/-- C8: every candidate a crawl run emits carries
`deriveStoryIdFromUrl` of its own URL — a total pure function (first 12
hex characters of the SHA-256 of the URL under the `url:` tag) — so two
extractions of the same URL, within one run or across different runs,
environments and processes, always produce the same id. -/
theorem extract_candidate_id_deterministic :
    (∀ env opts oracle clock startTime c,
      c ∈ (browseWithLLMFallback env opts oracle clock startTime).candidates →
      c.id = deriveStoryIdFromUrl c.url none) ∧
    (∀ env₁ opts₁ oracle₁ clock₁ t₁ env₂ opts₂ oracle₂ clock₂ t₂ c₁ c₂,
      c₁ ∈ (browseWithLLMFallback env₁ opts₁ oracle₁ clock₁ t₁).candidates →
      c₂ ∈ (browseWithLLMFallback env₂ opts₂ oracle₂ clock₂ t₂).candidates →
      c₁.url = c₂.url → c₁.id = c₂.id) := by
  have main : ∀ env opts oracle clock startTime c,
      c ∈ (browseWithLLMFallback env opts oracle clock startTime).candidates →
      c.id = deriveStoryIdFromUrl c.url none := by
    intro env opts oracle clock startTime
    unfold browseWithLLMFallback
    split
    · simp
    · exact fun c hc =>
        crawlLoop_inv env (crawlConfigOf env opts startTime) oracle clock
          candidateIdInv
          (fun r => ∀ c ∈ r.candidates, c.id = deriveStoryIdFromUrl c.url none)
          (fun s s' h hP => candidateIdInv_next h hP)
          (fun s r h hP => candidateIdInv_done h hP)
          (initialCrawlState opts.seedUrl)
          (by simp [candidateIdInv, initialCrawlState]) c hc
  refine ⟨main, ?_⟩
  intro env₁ opts₁ oracle₁ clock₁ t₁ env₂ opts₂ oracle₂ clock₂ t₂ c₁ c₂ h₁ h₂ hurl
  rw [main env₁ opts₁ oracle₁ clock₁ t₁ c₁ h₁,
    main env₂ opts₂ oracle₂ clock₂ t₂ c₂ h₂, hurl]

/-- Reduction of an iteration that reaches the decision dispatch: with a
fresh, allowlisted head URL, time and page budget available, and a
successful navigation, the iteration is the decision dispatch on the
oracle's next outcome. -/
theorem crawlStep_fetch {env C oracle clock s url depth rest snap}
    (hq : s.queue = (url, depth) :: rest)
    (htime : clock s.iter - C.startTime ≤ C.timeoutMs)
    (hpages : s.pagesVisited < C.maxPages)
    (hvis : s.visited.contains url = false)
    (hallow : isDomainAllowed env url C.allowlist = true)
    (hfetch : env.fetchPage url = some snap) :
    crawlStep env C oracle clock s =
      handleDecision env C s rest url depth snap (decisionOf (oracle s.calls)) := by
  unfold crawlStep
  simp only [hq]
  rw [if_neg (not_lt.mpr htime), if_neg (not_le.mpr hpages)]
  simp only [hvis, hallow, hfetch]
  simp

/-- C6: a decision-oracle call that fails (network error, non-OK status,
timeout abort) or returns non-JSON content collapses to a `stop` decision,
and the run ends at that iteration returning exactly the candidates
accumulated so far — zero additional candidates. (The embedding is total,
so no exception escapes: every such run returns a value.) -/
theorem malformed_oracle_collapses_to_stop (env : CrawlEnv) (C : CrawlConfig)
    (oracle : ℕ → OracleOutcome) (clock : ℕ → ℚ) (s : CrawlState)
    (url : String) (depth : ℕ) (rest : List (String × ℕ))
    (out : OracleOutcome) (snap : Snapshot)
    (hq : s.queue = (url, depth) :: rest)
    (htime : clock s.iter - C.startTime ≤ C.timeoutMs)
    (hpages : s.pagesVisited < C.maxPages)
    (hvis : s.visited.contains url = false)
    (hallow : isDomainAllowed env url C.allowlist = true)
    (hfetch : env.fetchPage url = some snap)
    (hout : oracle s.calls = out)
    (hmal : out = .failure ∨ ∃ c, out = .nonJson c) :
    (decisionOf out).action = .stop ∧
    crawlLoop env C oracle clock s = ⟨s.candidates, s.fetched ++ [url]⟩ := by
  constructor
  · rcases hmal with rfl | ⟨c, rfl⟩ <;> rfl
  · have hdone : crawlStep env C oracle clock s =
        .done ⟨s.candidates, s.fetched ++ [url]⟩ := by
      rw [crawlStep_fetch hq htime hpages hvis hallow hfetch, hout]
      rcases hmal with rfl | ⟨c, rfl⟩ <;> rfl
    rw [crawlLoop_done hdone]

/-- Witness for C6: a concrete single-page run whose oracle call fails
outright; the run returns no candidates and exactly the one navigation. -/
theorem malformed_oracle_collapses_to_stop_witness :
    (decisionOf .failure).action = .stop ∧
    crawlLoop
        ⟨fun _ => some "example.com",
         fun _ => some ⟨"https://example.com/blog", "Blog", [], [], []⟩,
         fun _ => ⟨"", "", [], [], false, ""⟩⟩
        ⟨"src", ["example.com"], 3, 2, 2, 120000, 2, 0⟩
        (fun _ => .failure) (fun _ => 0)
        (initialCrawlState "https://example.com/blog") =
      ⟨[], ["https://example.com/blog"]⟩ :=
  malformed_oracle_collapses_to_stop
    ⟨fun _ => some "example.com",
     fun _ => some ⟨"https://example.com/blog", "Blog", [], [], []⟩,
     fun _ => ⟨"", "", [], [], false, ""⟩⟩
    ⟨"src", ["example.com"], 3, 2, 2, 120000, 2, 0⟩
    (fun _ => .failure) (fun _ => 0)
    (initialCrawlState "https://example.com/blog")
    "https://example.com/blog" 0 [] .failure
    ⟨"https://example.com/blog", "Blog", [], [], []⟩
    rfl (by norm_num [initialCrawlState]) (by norm_num [initialCrawlState]) rfl
    (by simp [isDomainAllowed, listEndsWith]) rfl rfl (Or.inl rfl)

/-- A continuing decision dispatch leaves the rest of the queue, possibly
with one enqueued click target appended. -/
theorem handleDecision_next_queue {env C s rest url depth snap decision s'}
    (h : handleDecision env C s rest url depth snap decision = .next s') :
    s'.queue = rest ∨ ∃ x, s'.queue = rest ++ [x] := by
  unfold handleDecision at h
  split at h
  · split at h
    · exact StepOutcome.noConfusion h
    · injection h with h
      subst h
      left
      simp [navCalledState, navState]
  · split at h
    · exact StepOutcome.noConfusion h
    · split at h
      · injection h with h
        subst h
        left
        simp [navCalledState, navState]
      · split at h
        · injection h with h
          subst h
          left
          simp [navCalledState, navState]
        split at h
        · injection h with h
          subst h
          left
          simp [navCalledState, navState]
        split at h
        · injection h with h
          subst h
          left
          simp [navCalledState, navState]
        · injection h with h
          subst h
          right
          exact ⟨_, rfl⟩
  · exact StepOutcome.noConfusion h

/-- C3: a sanitized `click` whose target is missing or matches no link id
of the current snapshot ends the run exactly like `stop`: the loop's queue
holds at most one entry at every reachable state (it starts with one and
every iteration removes one and enqueues at most one), and at any such
state an invalid click target makes the whole run return the candidates
accumulated so far, with no further navigation. -/
theorem invalid_click_target_terminates_run (env : CrawlEnv) (C : CrawlConfig)
    (oracle : ℕ → OracleOutcome) (clock : ℕ → ℚ) :
    (∀ u, (initialCrawlState u).queue.length = 1) ∧
    (∀ s s', s.queue.length ≤ 1 → crawlStep env C oracle clock s = .next s' →
      s'.queue.length ≤ 1) ∧
    (∀ s url depth snap target reason,
      s.queue = [(url, depth)] →
      clock s.iter - C.startTime ≤ C.timeoutMs →
      s.pagesVisited < C.maxPages →
      s.visited.contains url = false →
      isDomainAllowed env url C.allowlist = true →
      env.fetchPage url = some snap →
      decisionOf (oracle s.calls) = ⟨.click, target, reason⟩ →
      (∀ l ∈ snap.links, target ≠ some l.id) →
      crawlLoop env C oracle clock s = ⟨s.candidates, s.fetched ++ [url]⟩) := by
  refine ⟨fun u => rfl, ?_, ?_⟩
  · intro s s' hlen h
    unfold crawlStep at h
    split at h
    · exact StepOutcome.noConfusion h
    · rename_i url depth rest hq
      rw [hq, List.length_cons] at hlen
      split at h
      · exact StepOutcome.noConfusion h
      split at h
      · exact StepOutcome.noConfusion h
      split at h
      · injection h with h
        subst h
        simp [skipState]
        omega
      split at h
      · injection h with h
        subst h
        simp [skipState]
        omega
      · split at h
        · injection h with h
          subst h
          simp [navState]
          omega
        · rcases handleDecision_next_queue h with hs | ⟨x, hs⟩
          · rw [hs]
            omega
          · rw [hs, List.length_append, List.length_singleton]
            omega
  · intro s url depth snap target reason hq htime hpages hvis hallow hfetch hdec hmiss
    have hred := @crawlStep_fetch env C oracle clock s url depth [] snap
      hq htime hpages hvis hallow hfetch
    rw [hdec] at hred
    by_cases hclicks : s.clicks ≥ C.maxClicks
    · have hdone : crawlStep env C oracle clock s =
          .done ⟨s.candidates, s.fetched ++ [url]⟩ := by
        rw [hred]
        unfold handleDecision
        simp [hclicks]
      rw [crawlLoop_done hdone]
    · have hfind : snap.links.find?
          (fun l => (⟨BrowseAction.click, target, reason⟩ : BrowsingDecision).target ==
            some l.id) = none := by
        rw [List.find?_eq_none]
        intro l hl
        simpa using hmiss l hl
      have hnext : crawlStep env C oracle clock s = .next (navCalledState s [] url) := by
        rw [hred]
        unfold handleDecision
        simp [hclicks, hfind]
      rw [crawlLoop_next hnext]
      have hdone2 : crawlStep env C oracle clock (navCalledState s [] url) =
          .done ⟨s.candidates, s.fetched ++ [url]⟩ := by
        unfold crawlStep
        simp [navCalledState, navState]
      rw [crawlLoop_done hdone2]

/-- Witness for C3: a concrete run whose oracle clicks a target id that
matches no snapshot link; the run ends at once with no candidates and the
single navigation. -/
theorem invalid_click_target_terminates_run_witness :
    crawlLoop
        ⟨fun _ => some "example.com",
         fun _ => some ⟨"https://example.com/blog", "Blog", [], [],
           [⟨"link-0", "post", "https://example.com/post-1"⟩]⟩,
         fun _ => ⟨"", "", [], [], false, ""⟩⟩
        ⟨"src", ["example.com"], 3, 2, 2, 120000, 2, 0⟩
        (fun _ => .json (.obj
          [("action", .str "click"), ("target", .str "nope"), ("reason", .str "r")]))
        (fun _ => 0)
        (initialCrawlState "https://example.com/blog") =
      ⟨[], ["https://example.com/blog"]⟩ :=
  (invalid_click_target_terminates_run
    ⟨fun _ => some "example.com",
     fun _ => some ⟨"https://example.com/blog", "Blog", [], [],
       [⟨"link-0", "post", "https://example.com/post-1"⟩]⟩,
     fun _ => ⟨"", "", [], [], false, ""⟩⟩
    ⟨"src", ["example.com"], 3, 2, 2, 120000, 2, 0⟩
    (fun _ => .json (.obj
      [("action", .str "click"), ("target", .str "nope"), ("reason", .str "r")]))
    (fun _ => 0)).2.2
    (initialCrawlState "https://example.com/blog")
    "https://example.com/blog" 0
    ⟨"https://example.com/blog", "Blog", [], [],
      [⟨"link-0", "post", "https://example.com/post-1"⟩]⟩
    (some "nope") "r"
    rfl (by norm_num [initialCrawlState]) (by norm_num [initialCrawlState]) rfl
    (by simp [isDomainAllowed, listEndsWith]) rfl rfl
    (by intro l hl; simp at hl; subst hl; simp)

/-- Witness for C8: a concrete run whose oracle extracts the seed page;
the emitted candidate's id is the URL-derived deterministic id. -/
theorem extract_candidate_id_deterministic_witness :
    (crawlCandidate
        ⟨fun _ => some "example.com",
         fun _ => some ⟨"https://example.com/blog", "Post", [], [], []⟩,
         fun _ => ⟨"", "", [], [], false, ""⟩⟩
        (crawlConfigOf
          ⟨fun _ => some "example.com",
           fun _ => some ⟨"https://example.com/blog", "Post", [], [], []⟩,
           fun _ => ⟨"", "", [], [], false, ""⟩⟩
          ⟨"fallback", "https://example.com/blog", ["example.com"], 3, 2, 2, 120000, 1⟩ 0)
        "https://example.com/blog"
        ⟨"https://example.com/blog", "Post", [], [], []⟩).id =
      deriveStoryIdFromUrl "https://example.com/blog" none := by
  have hstep : crawlStep
      ⟨fun _ => some "example.com",
       fun _ => some ⟨"https://example.com/blog", "Post", [], [], []⟩,
       fun _ => ⟨"", "", [], [], false, ""⟩⟩
      (crawlConfigOf
        ⟨fun _ => some "example.com",
         fun _ => some ⟨"https://example.com/blog", "Post", [], [], []⟩,
         fun _ => ⟨"", "", [], [], false, ""⟩⟩
        ⟨"fallback", "https://example.com/blog", ["example.com"], 3, 2, 2, 120000, 1⟩ 0)
      (fun _ => .json (.obj [("action", .str "extract")]))
      (fun _ => 0)
      (initialCrawlState "https://example.com/blog") =
      .done ⟨[crawlCandidate
        ⟨fun _ => some "example.com",
         fun _ => some ⟨"https://example.com/blog", "Post", [], [], []⟩,
         fun _ => ⟨"", "", [], [], false, ""⟩⟩
        (crawlConfigOf
          ⟨fun _ => some "example.com",
           fun _ => some ⟨"https://example.com/blog", "Post", [], [], []⟩,
           fun _ => ⟨"", "", [], [], false, ""⟩⟩
          ⟨"fallback", "https://example.com/blog", ["example.com"], 3, 2, 2, 120000, 1⟩ 0)
        "https://example.com/blog"
        ⟨"https://example.com/blog", "Post", [], [], []⟩],
        ["https://example.com/blog"]⟩ := by
    rw [@crawlStep_fetch
      ⟨fun _ => some "example.com",
       fun _ => some ⟨"https://example.com/blog", "Post", [], [], []⟩,
       fun _ => ⟨"", "", [], [], false, ""⟩⟩
      (crawlConfigOf
        ⟨fun _ => some "example.com",
         fun _ => some ⟨"https://example.com/blog", "Post", [], [], []⟩,
         fun _ => ⟨"", "", [], [], false, ""⟩⟩
        ⟨"fallback", "https://example.com/blog", ["example.com"], 3, 2, 2, 120000, 1⟩ 0)
      (fun _ => .json (.obj [("action", .str "extract")]))
      (fun _ => 0)
      (initialCrawlState "https://example.com/blog")
      "https://example.com/blog" 0 []
      ⟨"https://example.com/blog", "Post", [], [], []⟩
      rfl (by norm_num [initialCrawlState, crawlConfigOf])
      (by norm_num [initialCrawlState, crawlConfigOf]) rfl
      (by simp [isDomainAllowed, crawlConfigOf, effectiveAllowlist, listEndsWith]) rfl]
    rfl
  have hmem : crawlCandidate
      ⟨fun _ => some "example.com",
       fun _ => some ⟨"https://example.com/blog", "Post", [], [], []⟩,
       fun _ => ⟨"", "", [], [], false, ""⟩⟩
      (crawlConfigOf
        ⟨fun _ => some "example.com",
         fun _ => some ⟨"https://example.com/blog", "Post", [], [], []⟩,
         fun _ => ⟨"", "", [], [], false, ""⟩⟩
        ⟨"fallback", "https://example.com/blog", ["example.com"], 3, 2, 2, 120000, 1⟩ 0)
      "https://example.com/blog"
      ⟨"https://example.com/blog", "Post", [], [], []⟩ ∈
      (browseWithLLMFallback
        ⟨fun _ => some "example.com",
         fun _ => some ⟨"https://example.com/blog", "Post", [], [], []⟩,
         fun _ => ⟨"", "", [], [], false, ""⟩⟩
        ⟨"fallback", "https://example.com/blog", ["example.com"], 3, 2, 2, 120000, 1⟩
        (fun _ => .json (.obj [("action", .str "extract")]))
        (fun _ => 0) 0).candidates := by
    unfold browseWithLLMFallback
    rw [if_neg (by simp [effectiveAllowlist])]
    rw [crawlLoop_done hstep]
    simp
  have h := extract_candidate_id_deterministic.1
    ⟨fun _ => some "example.com",
     fun _ => some ⟨"https://example.com/blog", "Post", [], [], []⟩,
     fun _ => ⟨"", "", [], [], false, ""⟩⟩
    ⟨"fallback", "https://example.com/blog", ["example.com"], 3, 2, 2, 120000, 1⟩
    (fun _ => .json (.obj [("action", .str "extract")]))
    (fun _ => 0) 0 _ hmem
  exact h
